import Mathlib

/-!
Verification of the lead-scraping pipeline in `src/app/api/scrape/route.ts`.

The TypeScript route is shallowly embedded below:
* strings are Lean `String`s manipulated through their `data` character lists;
* the two network fetches are modelled by a `FetchOutcome` parameter holding
  what the adapter would observe (a network error, or a response with an
  `ok` flag and the parsed result nodes in document order);
* `Math.random()` draws are modelled by a `DemoRandom` record of choice
  streams; a JavaScript draw `Math.floor(Math.random() * n)` (always in
  `[0, n)`) is embedded as an arbitrary natural reduced `% n`, which ranges
  over exactly the same values;
* the JavaScript `Map` built for deduplication keeps the first-insertion
  position of each key and overwrites the value on re-insertion, which
  `insertLead` reproduces on an association list.
-/

/-! ## JavaScript string primitives used by the route -/

/-- ASCII whitespace, standing in for the JavaScript `\s` class /
whitespace trimmed by `String.prototype.trim`. -/
def isSpaceJS (c : Char) : Bool :=
  c == ' ' || c == '\t' || c == '\n' || c == '\r' || c == '\x0b' || c == '\x0c'

/-- The JavaScript `\w` class: letters, digits, underscore. -/
def isWordJS (c : Char) : Bool :=
  c.isAlpha || c.isDigit || c == '_'

/-- `trim`: drop whitespace from both ends. -/
def jsTrim (s : String) : String :=
  String.mk (((s.data.dropWhile isSpaceJS).reverse.dropWhile isSpaceJS).reverse)

/-- `toLowerCase`, on the ASCII range. -/
def jsToLower (s : String) : String :=
  String.mk (s.data.map Char.toLower)

/-- Does `needle` occur at the head of `hay`? -/
def matchesHere : List Char → List Char → Bool
  | [], _ => true
  | _ :: _, [] => false
  | n :: ns, h :: hs => n == h && matchesHere ns hs

/-- Does `needle` occur anywhere in `hay`? -/
def occursIn (ns : List Char) : List Char → Bool
  | [] => matchesHere ns []
  | h :: hs => matchesHere ns (h :: hs) || occursIn ns hs

/-- `hay.includes(needle)`. -/
def strIncludes (hay needle : String) : Bool :=
  occursIn needle.data hay.data

/-- `s.startsWith(pre)`. -/
def jsStartsWith (s pre : String) : Bool :=
  matchesHere pre.data s.data

/-- The `x || y` idiom on an optional string: an absent or empty
left operand falls through to the right operand. -/
def jsOrStr (a b : Option String) : Option String :=
  match a with
  | some s => if s = "" then b else some s
  | none => b

/-- The `x || y` idiom on two strings. -/
def jsOrStrStr (a b : String) : String :=
  if a = "" then b else a

/-! ## The two regular expressions of the contact inference

`/[\w.-]+@[\w.-]+\.\w+/` and `/\(?\d{3}\)?[-.\s]?\d{3}[-.\s]?\d{4}/` are
sequences of three primitive pieces: a single character of a class, an
optional character of a class, and a greedy `*` over a class (with `x+`
written as `x` followed by `x*`).  `reMatch` is a backtracking matcher
for such sequences with exactly the greedy leftmost semantics of the
JavaScript engine; the fuel argument strictly exceeds the sum of the
pattern and input lengths, which every recursive call decreases. -/

inductive RItem where
  | one : (Char → Bool) → RItem
  | opt : (Char → Bool) → RItem
  | star : (Char → Bool) → RItem

/-- Backtracking matcher: the longest match of the pattern at the head of
the input, preferring to consume characters (greedy) and backtracking on
failure, as the JavaScript regex engine does. -/
def reMatch : Nat → List RItem → List Char → Option (List Char)
  | 0, _, _ => none
  | _ + 1, [], _ => some []
  | _ + 1, RItem.one _ :: _, [] => none
  | fuel + 1, RItem.one p :: rest, c :: cs =>
    if p c then (reMatch fuel rest cs).map (c :: ·) else none
  | fuel + 1, RItem.opt _ :: rest, [] => reMatch fuel rest []
  | fuel + 1, RItem.opt p :: rest, c :: cs =>
    if p c then
      match reMatch fuel rest cs with
      | some m => some (c :: m)
      | none => reMatch fuel rest (c :: cs)
    else reMatch fuel rest (c :: cs)
  | fuel + 1, RItem.star _ :: rest, [] => reMatch fuel rest []
  | fuel + 1, RItem.star p :: rest, c :: cs =>
    if p c then
      match reMatch fuel (RItem.star p :: rest) cs with
      | some m => some (c :: m)
      | none => reMatch fuel rest (c :: cs)
    else reMatch fuel rest (c :: cs)

/-- Match a pattern at the head of the input, with enough fuel. -/
def reMatchTop (items : List RItem) (cs : List Char) : Option (List Char) :=
  reMatch (items.length + cs.length + 1) items cs

/-- Leftmost match: try each start position from the left, as
`String.prototype.match` does. -/
def reFindAux (items : List RItem) : List Char → Option (List Char)
  | [] => reMatchTop items []
  | c :: cs =>
    match reMatchTop items (c :: cs) with
    | some m => some m
    | none => reFindAux items cs

/-- `s.match(re)?.[0]`: the first match of the pattern in `s`, if any. -/
def reFind (items : List RItem) (s : String) : Option String :=
  (reFindAux items s.data).map String.mk

/-- The `[\w.-]` class. -/
def isEmailChar (c : Char) : Bool :=
  isWordJS c || c == '.' || c == '-'

/-- The `[-.\s]` separator class of the phone pattern. -/
def isPhoneSep (c : Char) : Bool :=
  c == '-' || c == '.' || isSpaceJS c

/-- The email pattern `[\w.-]+@[\w.-]+\.\w+`. -/
def emailRE : List RItem :=
  [RItem.one isEmailChar, RItem.star isEmailChar,
   RItem.one (· == '@'),
   RItem.one isEmailChar, RItem.star isEmailChar,
   RItem.one (· == '.'),
   RItem.one isWordJS, RItem.star isWordJS]

/-- The phone pattern `\(?\d{3}\)?[-.\s]?\d{3}[-.\s]?\d{4}`. -/
def phoneRE : List RItem :=
  [RItem.opt (· == '('),
   RItem.one Char.isDigit, RItem.one Char.isDigit, RItem.one Char.isDigit,
   RItem.opt (· == ')'),
   RItem.opt isPhoneSep,
   RItem.one Char.isDigit, RItem.one Char.isDigit, RItem.one Char.isDigit,
   RItem.opt isPhoneSep,
   RItem.one Char.isDigit, RItem.one Char.isDigit, RItem.one Char.isDigit,
   RItem.one Char.isDigit]

/-- `contact: emailMatch?.[0] || phoneMatch?.[0]` — the contact inference
applied to a snippet. -/
def inferContact (snippet : String) : Option String :=
  jsOrStr (reFind emailRE snippet) (reFind phoneRE snippet)

/-! ## Data model -/

/-- The `Lead` interface of the route. -/
structure Lead where
  name : String
  url : String
  description : String
  contact : Option String
deriving Repr, DecidableEq

/-- One candidate result node found by the cheerio selectors: the raw
title text, the raw `href` attribute (absent when the anchor has none),
and the raw snippet text, before trimming. -/
structure RawItem where
  titleText : String
  href : Option String
  snippetText : String
deriving Repr, DecidableEq

/-- What one outbound fetch of an adapter observes: a thrown network
error, or a response carrying its `ok` flag and the result nodes the
selectors would find in its body, in document order. -/
inductive FetchOutcome where
  | err : FetchOutcome
  | resp : Bool → List RawItem → FetchOutcome
deriving Repr, DecidableEq

/-! ## Source adapters -/

/-- The per-result body of the DuckDuckGo `$('.result').each` loop:
trim title and snippet, read the `href` with the `|| ''` default, skip
the node unless both title and url are non-empty (JavaScript string
truthiness), prefix `https://` when the url does not start with
`http`, default the description, and run the contact inference. -/
def ddgLeadOfItem (item : RawItem) : Option Lead :=
  let title := jsTrim item.titleText
  let url := item.href.getD ""
  let snippet := jsTrim item.snippetText
  if title ≠ "" ∧ url ≠ "" then
    some { name := title
           url := if jsStartsWith url "http" then url else "https://" ++ url
           description := jsOrStrStr snippet "No description available"
           contact := inferContact snippet }
  else none

/-- `scrapeFromDuckDuckGo`: on a thrown fetch or a non-`ok` response the
`catch` yields `[]`; otherwise at most 20 result nodes are extracted. -/
def scrapeFromDuckDuckGo (industry location : String)
    (outcome : FetchOutcome) : List Lead :=
  match outcome with
  | FetchOutcome.err => []
  | FetchOutcome.resp ok items =>
    if ok then (items.take 20).filterMap ddgLeadOfItem else []

/-- The per-result body of the Bing `$('.b_algo').each` loop: as for
DuckDuckGo except that the url is emitted verbatim, with no scheme
prefixing. -/
def bingLeadOfItem (item : RawItem) : Option Lead :=
  let title := jsTrim item.titleText
  let url := item.href.getD ""
  let snippet := jsTrim item.snippetText
  if title ≠ "" ∧ url ≠ "" then
    some { name := title
           url := url
           description := jsOrStrStr snippet "No description available"
           contact := inferContact snippet }
  else none

/-- `scrapeFromBing`: failures yield `[]`; otherwise at most 15 result
nodes are extracted. -/
def scrapeFromBing (industry location : String)
    (outcome : FetchOutcome) : List Lead :=
  match outcome with
  | FetchOutcome.err => []
  | FetchOutcome.resp ok items =>
    if ok then (items.take 15).filterMap bingLeadOfItem else []

/-! ## Synthetic (demo) lead generator -/

/-- The `industryPatterns` object, in insertion order (which
`Object.entries` preserves), including its `default` entry. -/
def industryPatterns : List (String × List String) :=
  [("restaurant", ["Bistro", "Cafe", "Grill", "Kitchen", "Diner", "Eatery"]),
   ("dentist", ["Dental Care", "Dentistry", "Dental Clinic", "Dental Associates"]),
   ("lawyer", ["Law Firm", "Legal Services", "Attorney", "Legal Group"]),
   ("realtor", ["Real Estate", "Realty", "Properties", "Real Estate Group"]),
   ("plumber", ["Plumbing", "Plumbing Services", "Plumbing Solutions"]),
   ("salon", ["Hair Salon", "Beauty Salon", "Spa", "Beauty Bar"]),
   ("gym", ["Fitness Center", "Gym", "Health Club", "Fitness Studio"]),
   ("hotel", ["Hotel", "Inn", "Resort", "Lodge"]),
   ("default", ["Business", "Company", "Services", "Solutions", "Group"])]

/-- The surname list of the generator. -/
def surnames : List String :=
  ["Smith", "Johnson", "Williams", "Brown", "Jones",
   "Garcia", "Miller", "Davis", "Rodriguez", "Martinez"]

/-- The generic location qualifiers used when no location is given. -/
def genericLocations : List String :=
  ["Downtown", "Central", "North", "South", "East", "West"]

/-- The pattern-selection loop: the first entry whose key is a substring
of the lower-cased industry wins; the `default` list is both the loop
initialisation and the final entry of the iteration. -/
def findPattern (industry : String) : List String :=
  match industryPatterns.find? (fun kv => strIncludes (jsToLower industry) kv.1) with
  | some kv => kv.2
  | none => ["Business", "Company", "Services", "Solutions", "Group"]

/-- The `Math.random()` draws of one `generateDemoLeads` call. A draw
`Math.floor(Math.random() * n)` lands in `[0, n)`; it is embedded as an
arbitrary natural taken `% n` at the use site, which has exactly the
same range. `contactFlip` models `Math.random() > 0.5`. -/
structure DemoRandom where
  countChoice : Nat
  nameIdx : Nat → Nat
  patternIdx : Nat → Nat
  locationIdx : Nat → Nat
  contactFlip : Nat → Bool

/-- Worker for `collapseWS`: the flag records whether the previous
character belonged to the whitespace run currently being replaced. -/
def collapseWSAux : Bool → List Char → List Char
  | _, [] => []
  | inRun, c :: cs =>
    if isSpaceJS c then
      if inRun then collapseWSAux true cs
      else '-' :: collapseWSAux true cs
    else c :: collapseWSAux false cs

/-- `replace(/\s+/g, '-')`: collapse each whitespace run to one hyphen. -/
def collapseWS (l : List Char) : List Char :=
  collapseWSAux false l

/-- The slug used in synthetic urls. -/
def slugify (industry : String) : String :=
  String.mk (collapseWS (jsToLower industry).data)

/-- The url of the `i`-th synthetic lead. -/
def demoUrl (industry : String) (i : Nat) : String :=
  "https://example-" ++ slugify industry ++ "-" ++ toString i ++ ".com"

/-- `businessName.toLowerCase().replace(/[^a-z0-9]/g, '')`. -/
def cleanBusinessName (s : String) : String :=
  String.mk ((jsToLower s).data.filter (fun c => c.isLower || c.isDigit))

/-- The `i`-th synthetic lead of one `generateDemoLeads` call. -/
def demoLead (industry : String) (pat locs : List String)
    (rnd : DemoRandom) (i : Nat) : Lead :=
  let randomName := surnames.getD (rnd.nameIdx i % surnames.length) ""
  let randomPattern := pat.getD (rnd.patternIdx i % pat.length) ""
  let randomLocation := locs.getD (rnd.locationIdx i % locs.length) ""
  let businessName := randomName ++ "\x27s " ++ randomPattern
  let hasContact := rnd.contactFlip i
  { name := businessName
    url := demoUrl industry i
    description := "Professional " ++ industry ++ " services in " ++ randomLocation ++ ". " ++
      (if hasContact then "Contact available for inquiries."
       else "Serving the local community with quality service.")
    contact := if hasContact then some ("contact@" ++ cleanBusinessName businessName ++ ".com")
      else none }

/-- `generateDemoLeads`: `Math.min(15, Math.floor(Math.random() * 8) + 8)`
synthetic leads, indexed from 0. -/
def generateDemoLeads (industry location : String) (rnd : DemoRandom) : List Lead :=
  let pat := findPattern industry
  let locs := if location ≠ "" then [location] else genericLocations
  let numLeads := min 15 (rnd.countChoice % 8 + 8)
  (List.range numLeads).map (demoLead industry pat locs rnd)

/-! ## Deduplication and the POST handler -/

/-- One `Map.set` step of `new Map(leads.map(lead => [lead.url, lead]))`:
re-inserting an existing key overwrites its value in place, a new key is
appended. -/
def insertLead (acc : List Lead) (l : Lead) : List Lead :=
  if acc.any (fun x => x.url == l.url) then
    acc.map (fun x => if x.url == l.url then l else x)
  else acc ++ [l]

/-- `Array.from(new Map(leads.map(lead => [lead.url, lead])).values())`. -/
def dedupByUrl (leads : List Lead) : List Lead :=
  leads.foldl insertLead []

/-- The body a `NextResponse.json` call carries back to the client. -/
inductive PostResponse where
  | ok : List Lead → String → PostResponse
  | badRequest : String → PostResponse
deriving Repr, DecidableEq

/-- The HTTP status attached to each response shape. -/
def statusOf : PostResponse → Nat
  | PostResponse.ok _ _ => 200
  | PostResponse.badRequest _ => 400

/-- The `leads` field of a success response. -/
def leadsOf : PostResponse → List Lead
  | PostResponse.ok leads _ => leads
  | PostResponse.badRequest _ => []

/-- The `source` field of a success response. -/
def srcOf : PostResponse → Option String
  | PostResponse.ok _ src => some src
  | PostResponse.badRequest _ => none

/-- One run of the `POST` handler, together with which of the three
sources it invoked. -/
structure PostTrace where
  response : PostResponse
  ddgInvoked : Bool
  bingInvoked : Bool
  demoInvoked : Bool
deriving Repr, DecidableEq

/-- The `POST` handler on a request whose `industry` and `location`
fields are strings: the `!industry` guard (string falsiness is
emptiness), the three staged sources, url deduplication, the 25-entry
cap, and the provenance tag. -/
def runPOST (industry location : String) (ddg bing : FetchOutcome)
    (rnd : DemoRandom) : PostTrace :=
  if industry = "" then
    { response := PostResponse.badRequest "Industry is required"
      ddgInvoked := false, bingInvoked := false, demoInvoked := false }
  else
    let duckduckgoLeads := scrapeFromDuckDuckGo industry location ddg
    let leads1 : List Lead :=
      if duckduckgoLeads.length > 0 then [] ++ duckduckgoLeads else []
    let bingInv := leads1.length < 10
    let leads2 :=
      if bingInv then leads1 ++ scrapeFromBing industry location bing else leads1
    let demoInv := leads2.length < 5
    let leads3 :=
      if demoInv then leads2 ++ generateDemoLeads industry location rnd else leads2
    let uniqueLeads := dedupByUrl leads3
    { response := PostResponse.ok (uniqueLeads.take 25)
        (if uniqueLeads.length > 0 then "web_scraping" else "demo")
      ddgInvoked := true, bingInvoked := bingInv, demoInvoked := demoInv }

/-! ## Derived definitions and concrete fixtures -/

/-- One step of building the first-occurrence url list. -/
def stepUrl (acc : List String) (u : String) : List String :=
  if acc.any (fun v => v == u) then acc else acc ++ [u]

/-- The urls of a list in first-occurrence order. -/
def firstOccurrences (us : List String) : List String :=
  us.foldl stepUrl []

/-- A concrete randomness stream: every draw at its lowest value. -/
def rnd0 : DemoRandom :=
  { countChoice := 0, nameIdx := fun _ => 0, patternIdx := fun _ => 0,
    locationIdx := fun _ => 0, contactFlip := fun _ => false }

/-- Two concrete leads sharing one url, the second appended later. -/
def leadA : Lead :=
  Lead.mk "Alpha Cafe" "https://same.example.com" "first record" none

/-- See `leadA`. -/
def leadB : Lead :=
  Lead.mk "Beta Cafe" "https://same.example.com" "second record" (some "b@example.com")

/-! ## Properties of the url-keyed deduplication -/

theorem mem_insertLead {acc : List Lead} {x y : Lead}
    (h : y ∈ insertLead acc x) : y ∈ acc ∨ y = x := by
  unfold insertLead at h
  by_cases hc : acc.any (fun z => z.url == x.url)
  · simp only [hc, if_pos] at h
    rcases List.mem_map.mp h with ⟨z, hz, hzy⟩
    by_cases hzu : z.url == x.url
    · rw [if_pos hzu] at hzy
      exact Or.inr hzy.symm
    · rw [if_neg hzu] at hzy
      exact Or.inl (hzy ▸ hz)
  · simp only [hc, if_neg] at h
    rcases List.mem_append.mp h with hy | hy
    · exact Or.inl hy
    · exact Or.inr (List.mem_singleton.mp hy)

theorem mem_foldl_insertLead {xs : List Lead} {y : Lead} :
    ∀ acc : List Lead, y ∈ xs.foldl insertLead acc → y ∈ acc ∨ y ∈ xs := by
  induction xs with
  | nil => exact fun _ h => Or.inl h
  | cons x xs ih =>
    intro acc h
    rcases ih (insertLead acc x) h with h | h
    · rcases mem_insertLead h with h | h
      · exact Or.inl h
      · exact Or.inr (h ▸ List.mem_cons_self x xs)
    · exact Or.inr (List.mem_cons_of_mem x h)

theorem mem_dedupByUrl {xs : List Lead} {y : Lead}
    (h : y ∈ dedupByUrl xs) : y ∈ xs := by
  rcases mem_foldl_insertLead [] h with h | h
  · simp at h
  · exact h

theorem length_insertLead (acc : List Lead) (x : Lead) :
    acc.length ≤ (insertLead acc x).length := by
  unfold insertLead
  by_cases hc : acc.any (fun z => z.url == x.url)
  · simp [hc]
  · simp [hc]

theorem length_foldl_insertLead (xs acc : List Lead) :
    acc.length ≤ (xs.foldl insertLead acc).length := by
  induction xs generalizing acc with
  | nil => exact Nat.le_refl _
  | cons x xs ih => exact Nat.le_trans (length_insertLead acc x) (ih (insertLead acc x))

theorem dedupByUrl_ne_nil {xs : List Lead} (h : xs ≠ []) : dedupByUrl xs ≠ [] := by
  cases xs with
  | nil => exact absurd rfl h
  | cons x xs =>
    intro hnil
    have h1 : insertLead [] x = [x] := by simp [insertLead]
    have h2 := length_foldl_insertLead xs (insertLead [] x)
    rw [h1] at h2
    have h3 : List.foldl insertLead [x] xs = [] := by
      rw [← h1]
      exact hnil
    rw [h3] at h2
    simp at h2

theorem map_url_replace (acc : List Lead) (x : Lead) :
    (acc.map (fun y => if y.url == x.url then x else y)).map (fun l => l.url) =
      acc.map (fun l => l.url) := by
  rw [List.map_map]
  apply List.map_congr_left
  intro y _
  by_cases hy : y.url == x.url
  · simp only [Function.comp_apply, if_pos hy]
    exact (beq_iff_eq.mp hy).symm
  · simp only [Function.comp_apply, if_neg hy]

theorem insertLead_map_url (acc : List Lead) (x : Lead) :
    (insertLead acc x).map (fun l => l.url) =
      stepUrl (acc.map (fun l => l.url)) x.url := by
  unfold insertLead stepUrl
  have hany : ((acc.map (fun l => l.url)).any (fun v => v == x.url)) =
      (acc.any (fun z => z.url == x.url)) := by
    induction acc with
    | nil => rfl
    | cons a as ih => simp only [List.map_cons, List.any_cons, ih]
  rw [hany]
  by_cases hc : acc.any (fun z => z.url == x.url) = true
  · rw [if_pos hc, if_pos hc]
    exact map_url_replace acc x
  · rw [if_neg hc, if_neg hc, List.map_append]
    rfl

theorem foldl_insertLead_map_url (xs acc : List Lead) :
    ((xs.foldl insertLead acc).map (fun l => l.url)) =
      ((xs.map (fun l => l.url)).foldl stepUrl (acc.map (fun l => l.url))) := by
  induction xs generalizing acc with
  | nil => rfl
  | cons x xs ih =>
    simp only [List.foldl_cons, List.map_cons]
    rw [ih (insertLead acc x), insertLead_map_url]

theorem dedupByUrl_map_url (xs : List Lead) :
    (dedupByUrl xs).map (fun l => l.url) = firstOccurrences (xs.map (fun l => l.url)) := by
  simpa using foldl_insertLead_map_url xs []

theorem stepUrl_nodup {acc : List String} (h : acc.Nodup) (u : String) :
    (stepUrl acc u).Nodup := by
  unfold stepUrl
  by_cases hc : acc.any (fun v => v == u)
  · simpa [hc] using h
  · have hu : u ∉ acc := by
      intro hmem
      have : acc.any (fun v => v == u) = true :=
        List.any_eq_true.mpr ⟨u, hmem, beq_iff_eq.mpr rfl⟩
      exact hc this
    simp [hc, List.nodup_append, h, hu]

theorem foldl_stepUrl_nodup (us : List String) {acc : List String} (h : acc.Nodup) :
    (us.foldl stepUrl acc).Nodup := by
  induction us generalizing acc with
  | nil => exact h
  | cons u us ih => exact ih (stepUrl_nodup h u)

theorem firstOccurrences_nodup (us : List String) : (firstOccurrences us).Nodup :=
  foldl_stepUrl_nodup us List.nodup_nil

theorem dedupByUrl_map_url_nodup (xs : List Lead) :
    ((dedupByUrl xs).map (fun l => l.url)).Nodup := by
  rw [dedupByUrl_map_url]
  exact firstOccurrences_nodup _

theorem dedupByUrl_append_singleton (xs : List Lead) (x : Lead) :
    dedupByUrl (xs ++ [x]) = insertLead (dedupByUrl xs) x := by
  simp [dedupByUrl, List.foldl_append]

theorem filter_replace_of_ne {acc : List Lead} {x : Lead} {u : String}
    (hne : x.url ≠ u) :
    ((acc.map (fun y => if y.url == x.url then x else y)).filter (fun l => l.url == u)) =
      acc.filter (fun l => l.url == u) := by
  induction acc with
  | nil => rfl
  | cons a as ih =>
    rw [List.map_cons]
    by_cases ha : (a.url == x.url) = true
    · have hau : a.url = x.url := beq_iff_eq.mp ha
      have h1 : ¬((x.url == u) = true) := fun h => hne (beq_iff_eq.mp h)
      have h2 : ¬((a.url == u) = true) := fun h => hne (hau ▸ beq_iff_eq.mp h)
      rw [if_pos ha, List.filter_cons, List.filter_cons, if_neg h1, if_neg h2, ih]
    · rw [if_neg ha, List.filter_cons, List.filter_cons]
      by_cases hau : (a.url == u) = true
      · rw [if_pos hau, if_pos hau, ih]
      · rw [if_neg hau, if_neg hau, ih]

theorem filter_replace_none {as : List Lead} {x : Lead}
    (h : ∀ y ∈ as, (y.url == x.url) = false) :
    ((as.map (fun y => if y.url == x.url then x else y)).filter (fun l => l.url == x.url)) = [] := by
  induction as with
  | nil => rfl
  | cons a as ih =>
    have ha := h a (List.mem_cons_self a as)
    rw [List.map_cons, if_neg (by simp [ha]), List.filter_cons_of_neg (by simp [ha])]
    exact ih (fun y hy => h y (List.mem_cons_of_mem a hy))

theorem filter_replace_of_eq {acc : List Lead} {x : Lead}
    (hnodup : (acc.map (fun l => l.url)).Nodup)
    (hany : acc.any (fun z => z.url == x.url) = true) :
    ((acc.map (fun y => if y.url == x.url then x else y)).filter (fun l => l.url == x.url)) = [x] := by
  induction acc with
  | nil => simp at hany
  | cons a as ih =>
    rw [List.map_cons] at hnodup ⊢
    by_cases ha : (a.url == x.url) = true
    · rw [if_pos ha, List.filter_cons_of_pos (by simp)]
      have hnotin : a.url ∉ as.map (fun l => l.url) := (List.nodup_cons.mp hnodup).1
      have htail : ∀ y ∈ as, (y.url == x.url) = false := by
        intro y hy
        by_contra hbad
        have hyx : (y.url == x.url) = true := by
          cases hxy : (y.url == x.url) with
          | true => rfl
          | false => exact absurd hxy hbad
        have : y.url = a.url := (beq_iff_eq.mp hyx).trans (beq_iff_eq.mp ha).symm
        exact hnotin (this ▸ List.mem_map_of_mem (fun l => l.url) hy)
      rw [filter_replace_none htail]
    · rw [if_neg ha, List.filter_cons_of_neg (by simp [ha])]
      have hany2 : as.any (fun z => z.url == x.url) = true := by
        rcases List.any_eq_true.mp hany with ⟨z, hz, hzp⟩
        rcases List.mem_cons.mp hz with rfl | hz2
        · exact absurd hzp (by simp [ha])
        · exact List.any_eq_true.mpr ⟨z, hz2, hzp⟩
      exact ih (List.nodup_cons.mp hnodup).2 hany2

theorem dedupByUrl_filter_getLast (xs : List Lead) (u : String) :
    ((dedupByUrl xs).filter (fun l => l.url == u)) =
      ((xs.filter (fun l => l.url == u)).getLast?).toList := by
  induction xs using List.reverseRecOn with
  | nil => rfl
  | append_singleton xs x ih =>
    rw [dedupByUrl_append_singleton, List.filter_append]
    by_cases hx : (x.url == u) = true
    · have hxu : x.url = u := beq_iff_eq.mp hx
      subst hxu
      have hfx : ([x].filter (fun l => l.url == x.url)) = [x] := by simp
      rw [hfx, List.getLast?_concat]
      unfold insertLead
      by_cases hD : (dedupByUrl xs).any (fun z => z.url == x.url) = true
      · rw [if_pos hD]
        exact filter_replace_of_eq (dedupByUrl_map_url_nodup xs) hD
      · rw [if_neg hD, List.filter_append, hfx]
        have hnil : ((dedupByUrl xs).filter (fun l => l.url == x.url)) = [] := by
          rw [List.filter_eq_nil_iff]
          intro a haD hau
          exact hD (List.any_eq_true.mpr ⟨a, haD, hau⟩)
        rw [hnil, List.nil_append]
        rfl
    · have hxu : x.url ≠ u := fun h => hx (beq_iff_eq.mpr h)
      have hfx : ([x].filter (fun l => l.url == u)) = [] := by simp [hx]
      rw [hfx, List.append_nil]
      unfold insertLead
      by_cases hD : (dedupByUrl xs).any (fun z => z.url == x.url) = true
      · rw [if_pos hD, filter_replace_of_ne hxu]
        exact ih
      · rw [if_neg hD, List.filter_append, hfx, List.append_nil]
        exact ih

theorem dedupByUrl_of_nodup {xs : List Lead}
    (h : (xs.map (fun l => l.url)).Nodup) : dedupByUrl xs = xs := by
  induction xs using List.reverseRecOn with
  | nil => rfl
  | append_singleton xs x ih =>
    rw [List.map_append, List.nodup_append] at h
    rw [dedupByUrl_append_singleton, ih h.1]
    unfold insertLead
    have hno : xs.any (fun z => z.url == x.url) = false := by
      by_contra hbad
      have hany : xs.any (fun z => z.url == x.url) = true := by
        cases hc : xs.any (fun z => z.url == x.url) with
        | true => rfl
        | false => exact absurd hc hbad
      rcases List.any_eq_true.mp hany with ⟨z, hz, hzp⟩
      have hzx : z.url = x.url := beq_iff_eq.mp hzp
      have hmem : x.url ∈ xs.map (fun l => l.url) :=
        hzx ▸ List.mem_map_of_mem (fun l => l.url) hz
      have hd := h.2.2
      exact hd hmem (by simp)
    rw [if_neg (by simp [hno])]

/-! ## Properties of the synthetic generator -/

theorem generateDemoLeads_length (industry location : String) (rnd : DemoRandom) :
    (generateDemoLeads industry location rnd).length = min 15 (rnd.countChoice % 8 + 8) := by
  simp [generateDemoLeads]

theorem generateDemoLeads_length_ge (industry location : String) (rnd : DemoRandom) :
    8 ≤ (generateDemoLeads industry location rnd).length := by
  rw [generateDemoLeads_length]
  exact Nat.le_min.mpr ⟨by norm_num, Nat.le_add_left 8 _⟩

theorem generateDemoLeads_length_le (industry location : String) (rnd : DemoRandom) :
    (generateDemoLeads industry location rnd).length ≤ 15 :=
  (generateDemoLeads_length industry location rnd) ▸ Nat.min_le_left 15 _

theorem generateDemoLeads_map_url (industry location : String) (rnd : DemoRandom) :
    (generateDemoLeads industry location rnd).map (fun l => l.url) =
      (List.range (min 15 (rnd.countChoice % 8 + 8))).map (demoUrl industry) := by
  unfold generateDemoLeads
  rw [List.map_map]
  apply List.map_congr_left
  intro i _
  rfl

theorem natToString_inj_lt15 :
    ∀ i : Nat, i < 15 → ∀ j : Nat, j < 15 → toString i = toString j → i = j := by decide

theorem demoUrl_inj {industry : String} {i j : Nat} (hi : i < 15) (hj : j < 15)
    (h : demoUrl industry i = demoUrl industry j) : i = j := by
  unfold demoUrl at h
  have hd := congrArg String.data h
  simp only [String.data_append] at hd
  have h1 := List.append_cancel_right hd
  have h2 := List.append_cancel_left h1
  exact natToString_inj_lt15 i hi j hj (String.ext h2)

theorem generateDemoLeads_url_nodup (industry location : String) (rnd : DemoRandom) :
    ((generateDemoLeads industry location rnd).map (fun l => l.url)).Nodup := by
  rw [generateDemoLeads_map_url]
  apply List.Nodup.map_on _ (List.nodup_range _)
  intro a ha b hb hab
  have ha15 : a < 15 :=
    Nat.lt_of_lt_of_le (List.mem_range.mp ha) (Nat.min_le_left 15 _)
  have hb15 : b < 15 :=
    Nat.lt_of_lt_of_le (List.mem_range.mp hb) (Nat.min_le_left 15 _)
  exact demoUrl_inj ha15 hb15 hab

theorem demoUrl_ne_empty (industry : String) (i : Nat) : demoUrl industry i ≠ "" := by
  intro h
  unfold demoUrl at h
  have hd : ("https://example-".data ++ (slugify industry).data ++ "-".data ++
      (toString i).data) ++ ".com".data = [] := by
    have := congrArg String.data h
    simpa only [String.data_append] using this
  rcases List.append_eq_nil.mp hd with ⟨hd1, _⟩
  rcases List.append_eq_nil.mp hd1 with ⟨hd2, _⟩
  rcases List.append_eq_nil.mp hd2 with ⟨hd3, _⟩
  rcases List.append_eq_nil.mp hd3 with ⟨hd4, _⟩
  exact absurd hd4 (by decide)

theorem demoLead_name_ne_empty (industry : String) (pat locs : List String)
    (rnd : DemoRandom) (i : Nat) : (demoLead industry pat locs rnd i).name ≠ "" := by
  intro h
  have hd : ((surnames.getD (rnd.nameIdx i % surnames.length) "").data ++
      "\x27s ".data) ++ (pat.getD (rnd.patternIdx i % pat.length) "").data = [] := by
    have := congrArg String.data h
    simpa only [demoLead, String.data_append] using this
  rcases List.append_eq_nil.mp hd with ⟨hd1, _⟩
  rcases List.append_eq_nil.mp hd1 with ⟨_, hd2⟩
  exact absurd hd2 (by decide)

theorem generateDemoLeads_good (industry location : String) (rnd : DemoRandom) :
    ∀ l ∈ generateDemoLeads industry location rnd, l.name ≠ "" ∧ l.url ≠ "" := by
  intro l hl
  rcases List.mem_map.mp hl with ⟨i, _, rfl⟩
  exact ⟨demoLead_name_ne_empty industry _ _ rnd i, demoUrl_ne_empty industry i⟩

/-! ## Properties of the adapters -/

theorem https_append_ne_empty (u : String) : ("https://" ++ u) ≠ "" := by
  intro h
  have hd : "https://".data ++ u.data = [] := by
    have := congrArg String.data h
    simpa only [String.data_append] using this
  rcases List.append_eq_nil.mp hd with ⟨h1, _⟩
  exact absurd h1 (by decide)

theorem ddgLeadOfItem_good {item : RawItem} {lead : Lead}
    (h : ddgLeadOfItem item = some lead) : lead.name ≠ "" ∧ lead.url ≠ "" := by
  simp only [ddgLeadOfItem] at h
  split at h
  case isTrue hc =>
    cases h
    refine ⟨hc.1, ?_⟩
    by_cases hs : jsStartsWith (item.href.getD "") "http" = true
    · simpa [hs] using hc.2
    · simp only [hs]
      simp only [Bool.false_eq_true, if_false]
      exact https_append_ne_empty _
  case isFalse => cases h

theorem bingLeadOfItem_good {item : RawItem} {lead : Lead}
    (h : bingLeadOfItem item = some lead) : lead.name ≠ "" ∧ lead.url ≠ "" := by
  simp only [bingLeadOfItem] at h
  split at h
  case isTrue hc =>
    cases h
    exact ⟨hc.1, hc.2⟩
  case isFalse => cases h

theorem scrapeFromDuckDuckGo_good {industry location : String} {outcome : FetchOutcome}
    {lead : Lead} (h : lead ∈ scrapeFromDuckDuckGo industry location outcome) :
    lead.name ≠ "" ∧ lead.url ≠ "" := by
  cases outcome with
  | err => simp [scrapeFromDuckDuckGo] at h
  | resp ok items =>
    by_cases hok : ok = true
    · subst hok
      simp only [scrapeFromDuckDuckGo] at h
      rw [if_pos trivial] at h
      rcases List.mem_filterMap.mp h with ⟨item, _, hitem⟩
      exact ddgLeadOfItem_good hitem
    · simp [scrapeFromDuckDuckGo, hok] at h

theorem scrapeFromBing_good {industry location : String} {outcome : FetchOutcome}
    {lead : Lead} (h : lead ∈ scrapeFromBing industry location outcome) :
    lead.name ≠ "" ∧ lead.url ≠ "" := by
  cases outcome with
  | err => simp [scrapeFromBing] at h
  | resp ok items =>
    by_cases hok : ok = true
    · subst hok
      simp only [scrapeFromBing] at h
      rw [if_pos trivial] at h
      rcases List.mem_filterMap.mp h with ⟨item, _, hitem⟩
      exact bingLeadOfItem_good hitem
    · simp [scrapeFromBing, hok] at h

/-! ## Characterisation of one run of the POST handler -/

theorem if_length_pos_self (l : List Lead) : (if l.length > 0 then l else []) = l := by
  cases l <;> simp

theorem append_if (c : Prop) [Decidable c] (a b : List Lead) :
    (if c then a ++ b else a) = a ++ (if c then b else []) := by
  split <;> simp

theorem runPOST_eq (industry location : String) (ddg bing : FetchOutcome)
    (rnd : DemoRandom) (h : industry ≠ "") :
    runPOST industry location ddg bing rnd =
      { response := PostResponse.ok
          ((dedupByUrl
            ((scrapeFromDuckDuckGo industry location ddg ++
              (if (scrapeFromDuckDuckGo industry location ddg).length < 10
               then scrapeFromBing industry location bing else [])) ++
             (if (scrapeFromDuckDuckGo industry location ddg ++
                  (if (scrapeFromDuckDuckGo industry location ddg).length < 10
                   then scrapeFromBing industry location bing else [])).length < 5
              then generateDemoLeads industry location rnd else []))).take 25)
          (if (dedupByUrl
            ((scrapeFromDuckDuckGo industry location ddg ++
              (if (scrapeFromDuckDuckGo industry location ddg).length < 10
               then scrapeFromBing industry location bing else [])) ++
             (if (scrapeFromDuckDuckGo industry location ddg ++
                  (if (scrapeFromDuckDuckGo industry location ddg).length < 10
                   then scrapeFromBing industry location bing else [])).length < 5
              then generateDemoLeads industry location rnd else []))).length > 0
           then "web_scraping" else "demo")
        ddgInvoked := true
        bingInvoked := decide ((scrapeFromDuckDuckGo industry location ddg).length < 10)
        demoInvoked := decide ((scrapeFromDuckDuckGo industry location ddg ++
          (if (scrapeFromDuckDuckGo industry location ddg).length < 10
           then scrapeFromBing industry location bing else [])).length < 5) } := by
  simp only [runPOST, if_neg h, List.nil_append, if_length_pos_self, append_if]

/-! ## Support lemmas for the contact-inference and url claims -/

theorem reMatch_one_ne_nil {fuel : Nat} {p : Char → Bool} {rest : List RItem}
    {cs m : List Char} (h : reMatch fuel (RItem.one p :: rest) cs = some m) :
    m ≠ [] := by
  match fuel, cs with
  | 0, _ => simp [reMatch] at h
  | fuel + 1, [] => simp [reMatch] at h
  | fuel + 1, c :: cs =>
    simp only [reMatch] at h
    by_cases hp : p c = true
    · rw [if_pos hp] at h
      rcases Option.map_eq_some'.mp h with ⟨m2, _, rfl⟩
      simp
    · rw [if_neg hp] at h
      cases h

theorem reFindAux_one_ne_nil {p : Char → Bool} {rest : List RItem}
    {cs m : List Char} (h : reFindAux (RItem.one p :: rest) cs = some m) :
    m ≠ [] := by
  induction cs with
  | nil =>
    exact reMatch_one_ne_nil (by simpa [reFindAux, reMatchTop] using h)
  | cons c cs ih =>
    simp only [reFindAux] at h
    cases hm : reMatchTop (RItem.one p :: rest) (c :: cs) with
    | some m2 =>
      rw [hm] at h
      cases h
      exact reMatch_one_ne_nil hm
    | none =>
      rw [hm] at h
      exact ih h

theorem reFind_email_ne_empty {s e : String} (h : reFind emailRE s = some e) :
    e ≠ "" := by
  unfold reFind at h
  rcases Option.map_eq_some'.mp h with ⟨m, hm, rfl⟩
  simp only [emailRE] at hm
  have hne : m ≠ [] := reFindAux_one_ne_nil hm
  intro hc
  exact hne (congrArg String.data hc)

theorem jsStartsWith_https_append (u : String) :
    jsStartsWith ("https://" ++ u) "http" = true := by
  have hd : ("https://" ++ u).data =
      'h' :: 't' :: 't' :: 'p' :: 's' :: ':' :: '/' :: '/' :: u.data := by
    rw [String.data_append]
    rfl
  rw [jsStartsWith, hd]
  rfl

/-! ## The claims -/

/-- C1: for every run of the POST pipeline that returns successfully, the
returned leads list has at most 25 entries and every returned lead has a
non-empty name and a non-empty url. -/
theorem scrape_C1_claim (industry location : String) (ddg bing : FetchOutcome)
    (rnd : DemoRandom) (leads : List Lead) (src : String)
    (h : (runPOST industry location ddg bing rnd).response = PostResponse.ok leads src) :
    leads.length ≤ 25 ∧ ∀ l ∈ leads, l.name ≠ "" ∧ l.url ≠ "" := by
  by_cases hind : industry = ""
  · subst hind
    simp [runPOST] at h
  · rw [runPOST_eq industry location ddg bing rnd hind] at h
    have h1 :
        (dedupByUrl
          ((scrapeFromDuckDuckGo industry location ddg ++
            (if (scrapeFromDuckDuckGo industry location ddg).length < 10
             then scrapeFromBing industry location bing else [])) ++
           (if (scrapeFromDuckDuckGo industry location ddg ++
                (if (scrapeFromDuckDuckGo industry location ddg).length < 10
                 then scrapeFromBing industry location bing else [])).length < 5
            then generateDemoLeads industry location rnd else []))).take 25 = leads := by
      injection h with h1 _
    constructor
    · rw [← h1, List.length_take]
      exact Nat.min_le_left 25 _
    · intro l hl
      rw [← h1] at hl
      have hl2 := List.take_subset _ _ hl
      have hl3 := mem_dedupByUrl hl2
      rcases List.mem_append.mp hl3 with h4 | h4
      · rcases List.mem_append.mp h4 with h5 | h5
        · exact scrapeFromDuckDuckGo_good h5
        · by_cases hc : (scrapeFromDuckDuckGo industry location ddg).length < 10
          · rw [if_pos hc] at h5
            exact scrapeFromBing_good h5
          · rw [if_neg hc] at h5
            simp at h5
      · by_cases hc : (scrapeFromDuckDuckGo industry location ddg ++
            (if (scrapeFromDuckDuckGo industry location ddg).length < 10
             then scrapeFromBing industry location bing else [])).length < 5
        · rw [if_pos hc] at h4
          exact generateDemoLeads_good industry location rnd l h4
        · rw [if_neg hc] at h4
          simp at h4

/-- Witness for C1 at a concrete run. -/
theorem scrape_C1_witness :
    (leadsOf (runPOST "plumber" "" FetchOutcome.err FetchOutcome.err rnd0).response).length ≤ 25 :=
  (scrape_C1_claim "plumber" "" FetchOutcome.err FetchOutcome.err rnd0
    (leadsOf (runPOST "plumber" "" FetchOutcome.err FetchOutcome.err rnd0).response)
    "web_scraping" rfl).1

/-- C2 (amended): a request whose industry is the empty string fails with
the 400 response `"Industry is required"` and invokes no source; the
original claim also covered whitespace-only industries, which the
`!industry` guard does not reject (see the counterexample). -/
theorem scrape_C2_claim (location : String) (ddg bing : FetchOutcome)
    (rnd : DemoRandom) :
    runPOST "" location ddg bing rnd =
      { response := PostResponse.badRequest "Industry is required"
        ddgInvoked := false, bingInvoked := false, demoInvoked := false } := by
  rfl

/-- C2 counterexample: on the whitespace-only industry `" "` the handler
does not return the 400 error and does invoke the DuckDuckGo fetch. -/
theorem scrape_C2_counterexample :
    (runPOST " " "" FetchOutcome.err FetchOutcome.err rnd0).ddgInvoked = true ∧
    statusOf (runPOST " " "" FetchOutcome.err FetchOutcome.err rnd0).response = 200 := by
  exact ⟨rfl, rfl⟩

/-- C3: with a non-empty industry, Bing is invoked exactly when fewer
than 10 leads are held after DuckDuckGo, the synthetic generator is
invoked exactly when fewer than 5 leads are held after the two live
sources, and the working sequence is DuckDuckGo results, then Bing
results (when invoked), then synthetic results (when invoked). -/
theorem scrape_C3_claim (industry location : String) (ddg bing : FetchOutcome)
    (rnd : DemoRandom) (h : industry ≠ "") :
    ((runPOST industry location ddg bing rnd).bingInvoked = true ↔
      (scrapeFromDuckDuckGo industry location ddg).length < 10) ∧
    ((runPOST industry location ddg bing rnd).demoInvoked = true ↔
      (scrapeFromDuckDuckGo industry location ddg ++
        (if (scrapeFromDuckDuckGo industry location ddg).length < 10
         then scrapeFromBing industry location bing else [])).length < 5) ∧
    leadsOf (runPOST industry location ddg bing rnd).response =
      (dedupByUrl
        ((scrapeFromDuckDuckGo industry location ddg ++
          (if (scrapeFromDuckDuckGo industry location ddg).length < 10
           then scrapeFromBing industry location bing else [])) ++
         (if (scrapeFromDuckDuckGo industry location ddg ++
              (if (scrapeFromDuckDuckGo industry location ddg).length < 10
               then scrapeFromBing industry location bing else [])).length < 5
          then generateDemoLeads industry location rnd else []))).take 25 := by
  rw [runPOST_eq industry location ddg bing rnd h]
  refine ⟨by simp, by simp, rfl⟩

/-- Witness for C3 at a concrete run. -/
theorem scrape_C3_witness :
    (runPOST "gym" "" FetchOutcome.err FetchOutcome.err rnd0).bingInvoked = true ↔
      (scrapeFromDuckDuckGo "gym" "" FetchOutcome.err).length < 10 :=
  (scrape_C3_claim "gym" "" FetchOutcome.err FetchOutcome.err rnd0 (by decide)).1

/-- C4: deduplication is last-write-wins on url — when two or more leads
of the input share a url, the deduplicated output holds exactly one
entry for that url, and that entry is the record appended latest among
them (so all its field values are the later record's values). -/
theorem scrape_C4_claim (leads : List Lead) (u : String)
    (h : 2 ≤ (leads.filter (fun l => l.url == u)).length) :
    ((dedupByUrl leads).filter (fun l => l.url == u)).length = 1 ∧
    (dedupByUrl leads).filter (fun l => l.url == u) =
      ((leads.filter (fun l => l.url == u)).getLast?).toList := by
  have hmain := dedupByUrl_filter_getLast leads u
  refine ⟨?_, hmain⟩
  rw [hmain]
  have hne : leads.filter (fun l => l.url == u) ≠ [] := by
    intro hc
    rw [hc] at h
    simp at h
  obtain ⟨x, hx⟩ := Option.isSome_iff_exists.mp (List.getLast?_isSome.mpr hne)
  rw [hx]
  rfl

/-- Witness for C4 on a two-element input sharing one url. -/
theorem scrape_C4_witness :
    ((dedupByUrl [leadA, leadB]).filter (fun l => l.url == "https://same.example.com")).length = 1 ∧
    (dedupByUrl [leadA, leadB]).filter (fun l => l.url == "https://same.example.com") =
      (([leadA, leadB].filter (fun l => l.url == "https://same.example.com")).getLast?).toList :=
  scrape_C4_claim [leadA, leadB] "https://same.example.com" (by decide)

/-- C10: the deduplicated output lists urls in first-occurrence order:
its url projection is exactly the first-occurrence url sequence of the
input (while C4 shows each entry carries the last-written values). -/
theorem scrape_C10_claim (leads : List Lead) :
    (dedupByUrl leads).map (fun l => l.url) =
      firstOccurrences (leads.map (fun l => l.url)) :=
  dedupByUrl_map_url leads

/-- C5 counterexample: in the run with industry `"restaurant"`, empty
location and both live fetches failing (zero live leads), the source tag
is `"web_scraping"`, not `"demo"` — the tag is `"demo"` only when the
deduplicated list is empty, which the synthetic leads prevent. -/
theorem scrape_C5_counterexample :
    srcOf (runPOST "restaurant" "" FetchOutcome.err FetchOutcome.err rnd0).response =
      some "web_scraping" ∧
    srcOf (runPOST "restaurant" "" FetchOutcome.err FetchOutcome.err rnd0).response ≠
      some "demo" := by
  exact ⟨by decide, by decide⟩

/-- C5 (amended): in every run with industry `"restaurant"`, location
`""` and both live sources yielding zero leads, the response carries
between 8 and 15 leads whose urls are exactly
`https://example-restaurant-{n}.com` for `n = 0, 1, ...`, and the source
tag is `"web_scraping"` (not `"demo"` as the original claim stated). -/
theorem scrape_C5_claim (ddg bing : FetchOutcome) (rnd : DemoRandom)
    (h1 : scrapeFromDuckDuckGo "restaurant" "" ddg = [])
    (h2 : scrapeFromBing "restaurant" "" bing = []) :
    srcOf (runPOST "restaurant" "" ddg bing rnd).response = some "web_scraping" ∧
    8 ≤ (leadsOf (runPOST "restaurant" "" ddg bing rnd).response).length ∧
    (leadsOf (runPOST "restaurant" "" ddg bing rnd).response).length ≤ 15 ∧
    (leadsOf (runPOST "restaurant" "" ddg bing rnd).response).map (fun l => l.url) =
      (List.range (leadsOf (runPOST "restaurant" "" ddg bing rnd).response).length).map
        (fun i => "https://example-restaurant-" ++ toString i ++ ".com") := by
  rw [runPOST_eq "restaurant" "" ddg bing rnd (by decide), h1, h2]
  simp only [List.nil_append, ite_self, List.length_nil, List.append_nil]
  rw [if_pos (by norm_num : (0:Nat) < 5)]
  have hded : dedupByUrl (generateDemoLeads "restaurant" "" rnd) =
      generateDemoLeads "restaurant" "" rnd :=
    dedupByUrl_of_nodup (generateDemoLeads_url_nodup "restaurant" "" rnd)
  rw [hded]
  have hlen_le := generateDemoLeads_length_le "restaurant" "" rnd
  have htake : (generateDemoLeads "restaurant" "" rnd).take 25 =
      generateDemoLeads "restaurant" "" rnd :=
    List.take_of_length_le (Nat.le_trans hlen_le (by norm_num))
  rw [htake]
  have hpos : (generateDemoLeads "restaurant" "" rnd).length > 0 :=
    Nat.lt_of_lt_of_le (by norm_num) (generateDemoLeads_length_ge "restaurant" "" rnd)
  rw [if_pos hpos]
  simp only [leadsOf, srcOf]
  refine ⟨trivial, generateDemoLeads_length_ge "restaurant" "" rnd, hlen_le, ?_⟩
  rw [generateDemoLeads_map_url, generateDemoLeads_length]
  apply List.map_congr_left
  intro i _
  rfl

/-- Witness for C5 at a concrete run with both fetches failing. -/
theorem scrape_C5_witness :
    8 ≤ (leadsOf (runPOST "restaurant" "" FetchOutcome.err FetchOutcome.err rnd0).response).length :=
  (scrape_C5_claim FetchOutcome.err FetchOutcome.err rnd0 rfl rfl).2.1

/-- C6: every successful run (non-empty industry) reports source
`"web_scraping"`, never `"demo"`: whenever fewer than 5 leads are held
the synthetic generator appends at least 8 leads with pairwise-distinct
non-empty urls, so the deduplicated sequence is never empty. -/
theorem scrape_C6_claim (industry location : String) (ddg bing : FetchOutcome)
    (rnd : DemoRandom) (h : industry ≠ "") :
    srcOf (runPOST industry location ddg bing rnd).response = some "web_scraping" ∧
    8 ≤ (generateDemoLeads industry location rnd).length ∧
    ((generateDemoLeads industry location rnd).map (fun l => l.url)).Nodup ∧
    (∀ l ∈ generateDemoLeads industry location rnd, l.url ≠ "") := by
  refine ⟨?_, generateDemoLeads_length_ge industry location rnd,
    generateDemoLeads_url_nodup industry location rnd,
    fun l hl => (generateDemoLeads_good industry location rnd l hl).2⟩
  rw [runPOST_eq industry location ddg bing rnd h]
  by_cases hc : (scrapeFromDuckDuckGo industry location ddg ++
      (if (scrapeFromDuckDuckGo industry location ddg).length < 10
       then scrapeFromBing industry location bing else [])).length < 5
  · rw [if_pos hc]
    have h8 := generateDemoLeads_length_ge industry location rnd
    have hlen : 0 < ((scrapeFromDuckDuckGo industry location ddg ++
        (if (scrapeFromDuckDuckGo industry location ddg).length < 10
         then scrapeFromBing industry location bing else [])) ++
        generateDemoLeads industry location rnd).length := by
      rw [List.length_append]
      omega
    have hne : (scrapeFromDuckDuckGo industry location ddg ++
        (if (scrapeFromDuckDuckGo industry location ddg).length < 10
         then scrapeFromBing industry location bing else [])) ++
        generateDemoLeads industry location rnd ≠ [] := by
      intro hnil
      rw [hnil] at hlen
      simp at hlen
    have hd := dedupByUrl_ne_nil hne
    rw [if_pos (List.length_pos.mpr hd)]
    rfl
  · rw [if_neg hc]
    have h5 : 5 ≤ (scrapeFromDuckDuckGo industry location ddg ++
        (if (scrapeFromDuckDuckGo industry location ddg).length < 10
         then scrapeFromBing industry location bing else [])).length :=
      Nat.le_of_not_lt hc
    have hne : (scrapeFromDuckDuckGo industry location ddg ++
        (if (scrapeFromDuckDuckGo industry location ddg).length < 10
         then scrapeFromBing industry location bing else [])) ++ ([] : List Lead) ≠ [] := by
      rw [List.append_nil]
      intro hnil
      rw [hnil] at h5
      simp at h5
    have hd := dedupByUrl_ne_nil hne
    rw [if_pos (List.length_pos.mpr hd)]
    rfl

/-- Witness for C6 at a concrete run. -/
theorem scrape_C6_witness :
    srcOf (runPOST "hotel" "" FetchOutcome.err FetchOutcome.err rnd0).response =
      some "web_scraping" :=
  (scrape_C6_claim "hotel" "" FetchOutcome.err FetchOutcome.err rnd0 (by decide)).1

/-- C7: a source adapter never raises — a thrown fetch, a non-success
HTTP status, or a response in which the selectors find nothing all yield
the empty lead list, for both adapters and all inputs. -/
theorem scrape_C7_claim (industry location : String) (items : List RawItem) :
    scrapeFromDuckDuckGo industry location FetchOutcome.err = [] ∧
    scrapeFromDuckDuckGo industry location (FetchOutcome.resp false items) = [] ∧
    scrapeFromDuckDuckGo industry location (FetchOutcome.resp true []) = [] ∧
    scrapeFromBing industry location FetchOutcome.err = [] ∧
    scrapeFromBing industry location (FetchOutcome.resp false items) = [] ∧
    scrapeFromBing industry location (FetchOutcome.resp true []) = [] :=
  ⟨rfl, rfl, rfl, rfl, rfl, rfl⟩

/-- C8: the contact inference returns the first email-pattern match when
one exists, otherwise the first phone-pattern match when one exists,
otherwise nothing; and on the three sample snippets of the spec it
returns `"sales@example.com"`, `"(555) 123-4567"` (that snippet has no
email match) and nothing respectively. -/
theorem scrape_C8_claim :
    (∀ t e, reFind emailRE t = some e → inferContact t = some e) ∧
    (∀ t, reFind emailRE t = none → inferContact t = reFind phoneRE t) ∧
    inferContact "Contact us at sales@example.com today" = some "sales@example.com" ∧
    inferContact "Call (555) 123-4567 now" = some "(555) 123-4567" ∧
    reFind emailRE "Call (555) 123-4567 now" = none ∧
    inferContact "hello world" = none := by
  refine ⟨?_, ?_, by decide, by decide, by decide, by decide⟩
  · intro t e h
    unfold inferContact
    rw [h]
    simp only [jsOrStr]
    rw [if_neg (reFind_email_ne_empty h)]
  · intro t h
    unfold inferContact
    rw [h]
    rfl

/-- Witness for C8 on a fresh snippet holding an email. -/
theorem scrape_C8_witness :
    inferContact "write to info@city-mall.org soon" = some "info@city-mall.org" :=
  scrape_C8_claim.1 "write to info@city-mall.org soon" "info@city-mall.org" (by decide)

/-- C9 counterexample: the Bing adapter emits a relative extracted link
verbatim — the resulting lead url is `"/relative/path"`, which is not an
absolute address and received no scheme prefix. -/
theorem scrape_C9_counterexample :
    (scrapeFromBing "cafe" ""
      (FetchOutcome.resp true [RawItem.mk "Example Business" (some "/relative/path") ""])).map
        (fun l => l.url) = ["/relative/path"] ∧
    jsStartsWith "/relative/path" "http" = false ∧
    jsStartsWith "/relative/path" "https://" = false := by
  exact ⟨by decide, by decide, by decide⟩

/-- C9 (amended): only the DuckDuckGo adapter applies the scheme-prefix
convention — each of its leads has a url starting with `http` (the
extracted link when it already starts with `http`, else `https://` is
prefixed); the Bing adapter emits the extracted link verbatim, absolute
or not. -/
theorem scrape_C9_claim (industry location : String) (outcome : FetchOutcome) :
    (∀ l ∈ scrapeFromDuckDuckGo industry location outcome,
      jsStartsWith l.url "http" = true) ∧
    (∀ item lead, bingLeadOfItem item = some lead → lead.url = item.href.getD "") := by
  constructor
  · intro l hl
    cases outcome with
    | err => simp [scrapeFromDuckDuckGo] at hl
    | resp ok items =>
      by_cases hok : ok = true
      · subst hok
        simp only [scrapeFromDuckDuckGo] at hl
        rw [if_pos trivial] at hl
        rcases List.mem_filterMap.mp hl with ⟨item, _, hitem⟩
        simp only [ddgLeadOfItem] at hitem
        split at hitem
        · cases hitem
          by_cases hs : jsStartsWith (item.href.getD "") "http" = true
          · simp [hs]
          · simp only [hs, Bool.false_eq_true, if_false]
            exact jsStartsWith_https_append _
        · cases hitem
      · simp [scrapeFromBing, scrapeFromDuckDuckGo, hok] at hl
  · intro item lead hitem
    simp only [bingLeadOfItem] at hitem
    split at hitem
    · cases hitem
      rfl
    · cases hitem

/-- Witness for C9 on one concrete DuckDuckGo result with a bare host link. -/
theorem scrape_C9_witness :
    jsStartsWith "https://www.city-cafe.com" "http" = true :=
  (scrape_C9_claim "cafe" ""
    (FetchOutcome.resp true [RawItem.mk "City Cafe" (some "www.city-cafe.com") ""])).1
    (Lead.mk "City Cafe" "https://www.city-cafe.com" "No description available" none)
    (by decide)
